import Mathlib


/-!
# Verification of the AstrBot background-tool execution core

This development is a shallow embedding, in Lean 4, of the background task
subsystem of the repository (package `astrbot.core.background_tool`):

* `task_state.py`      — `TaskStatus`, `BackgroundTask` and its transitions;
* `output_buffer.py`   — `OutputBuffer`, a per-task ring buffer of lines;
* `task_registry.py`   — `TaskRegistry`, id- and session-indexed task map;
* `task_notifier.py`   — `TaskNotifier.build_message`;
* `callback_event_builder.py` — `CallbackEventBuilder.build_notification_text`;
* `task_executor.py`   — the exception branch of `TaskExecutor.execute` and
  `TaskExecutor.cancel`;
* `manager.py` / `llm_tools.py` — interrupt flags, `wait_tool_result`,
  `get_tool_output`, `stop_tool`.

Python dictionaries are embedded as insertion-ordered association lists,
wall-clock timestamps as explicit `Nat` parameters threaded through the
transitions, and the asyncio interleavings relevant to cancellation as an
explicit small-step scheduling model.  Locks (`RWLock`) guard the Python
structures against concurrent access but do not alter their sequential
semantics, so they have no counterpart here.
-/

/-! ## Association lists (embedding of Python `dict`)

Python dicts preserve insertion order: updating an existing key keeps its
position, inserting a new key appends at the end, `pop` removes the entry.
-/

def assocLookup {α : Type} : List (String × α) → String → Option α
  | [], _ => none
  | (k, v) :: rest, key => if k = key then some v else assocLookup rest key

def assocSet {α : Type} : List (String × α) → String → α → List (String × α)
  | [], key, v => [(key, v)]
  | (k, w) :: rest, key, v =>
    if k = key then (key, v) :: rest else (k, w) :: assocSet rest key v

def assocErase {α : Type} : List (String × α) → String → List (String × α)
  | [], _ => []
  | (k, v) :: rest, key =>
    if k = key then assocErase rest key else (k, v) :: assocErase rest key

/-! ## String helpers

`String` in Lean is a packed `List Char`; Python string slicing `s[:n]` and
`len(s)` act on characters, which matches `String.data`.
-/

/-- Embedding of Python `s[:n]` (for `n ≥ 0`): the first `n` characters. -/
def strTake (s : String) (n : Nat) : String := ⟨s.data.take n⟩

/-- Embedding of Python `"\n".join(lines)`. -/
def joinLines : List String → String
  | [] => ""
  | [x] => x
  | x :: xs => x ++ "\n" ++ joinLines xs

/-- `sub` occurs as a contiguous substring of `s`. -/
def StrContains (s sub : String) : Prop := ∃ pre post, s = pre ++ sub ++ post

/-- `suf` is a suffix of `s`. -/
def StrEndsWith (s suf : String) : Prop := ∃ pre, s = pre ++ suf

/-! ## Task status and task state — `task_state.py` -/

/-- `TaskStatus` enum (`task_state.py`). -/
inductive TaskStatus
  | pending
  | running
  | completed
  | failed
  | cancelled
deriving DecidableEq, Repr

/-- `TaskStatus.value` — the string payload of the Python enum members. -/
def TaskStatus.value : TaskStatus → String
  | .pending => "pending"
  | .running => "running"
  | .completed => "completed"
  | .failed => "failed"
  | .cancelled => "cancelled"

/-- `BackgroundTask` dataclass (`task_state.py`).  Timestamps are `Nat`
moments supplied explicitly where the Python calls `time.time()`; the
`completion_event` is `some b` when an `asyncio.Event` exists with set-flag
`b`, `none` when the field is `None`.  `output_log`, `event` and
`event_queue` carry opaque borrowed objects irrelevant to the claims and are
kept as plain data. -/
structure BackgroundTask where
  task_id : String
  tool_name : String
  tool_args : List (String × String) := []
  session_id : String
  status : TaskStatus := .pending
  created_at : Nat := 0
  started_at : Option Nat := none
  completed_at : Option Nat := none
  result : Option String := none
  error : Option String := none
  output_log : List String := []
  notification_message : Option String := none
  notification_sent : Bool := false
  is_being_waited : Bool := false
  completion_event : Option Bool := none
deriving DecidableEq, Repr

namespace BackgroundTask

/-- `BackgroundTask(task_id=..., tool_name=..., tool_args=..., session_id=...)`
with all other fields left at their dataclass defaults (`created_at` is the
construction time). -/
def new (task_id tool_name : String) (tool_args : List (String × String))
    (session_id : String) (now : Nat) : BackgroundTask :=
  { task_id, tool_name, tool_args, session_id, created_at := now }

/-- `_signal_completion` — sets the completion event when one exists. -/
def signalCompletion (t : BackgroundTask) : BackgroundTask :=
  match t.completion_event with
  | some _ => { t with completion_event := some true }
  | none => t

/-- `start()` — mark the task running. -/
def start (t : BackgroundTask) (now : Nat) : BackgroundTask :=
  { t with status := .running, started_at := some now }

/-- `complete(result)` — mark the task completed. -/
def complete (t : BackgroundTask) (result : String) (now : Nat) : BackgroundTask :=
  signalCompletion { t with status := .completed, result := some result, completed_at := some now }

/-- `fail(error)` — mark the task failed. -/
def fail (t : BackgroundTask) (error : String) (now : Nat) : BackgroundTask :=
  signalCompletion { t with status := .failed, error := some error, completed_at := some now }

/-- `cancel()` — mark the task cancelled.  Note: neither `result` nor
`error` is assigned here. -/
def cancel (t : BackgroundTask) (now : Nat) : BackgroundTask :=
  signalCompletion { t with status := .cancelled, completed_at := some now }

/-- `is_finished()` — status is one of the three terminal states. -/
def is_finished (t : BackgroundTask) : Bool :=
  t.status == .completed || t.status == .failed || t.status == .cancelled

end BackgroundTask

/-- The tasks producible by the lifecycle operations of `task_state.py`:
construction (Pending), then `start()` from Pending, and each terminal
transition taken at most once (the state machine of the spec allows no
transition out of a terminal state, and `TaskExecutor` performs exactly one
terminal transition per task). -/
inductive ReachableTask : BackgroundTask → Prop
  | new (task_id tool_name : String) (tool_args : List (String × String))
      (session_id : String) (now : Nat) :
      ReachableTask (BackgroundTask.new task_id tool_name tool_args session_id now)
  | start (t : BackgroundTask) (now : Nat) :
      ReachableTask t → t.status = .pending → ReachableTask (t.start now)
  | complete (t : BackgroundTask) (r : String) (now : Nat) :
      ReachableTask t → t.is_finished = false → ReachableTask (t.complete r now)
  | fail (t : BackgroundTask) (e : String) (now : Nat) :
      ReachableTask t → t.is_finished = false → ReachableTask (t.fail e now)
  | cancel (t : BackgroundTask) (now : Nat) :
      ReachableTask t → t.is_finished = false → ReachableTask (t.cancel now)

/-! ## Output buffer — `output_buffer.py`

Each task id maps to a `collections.deque(maxlen=max_lines)`; the deque is
embedded as a list whose append discards from the front once the length
would exceed `maxlen`.
-/

/-- Appending to a `deque(maxlen=maxlen)`: the new element goes at the end
and the oldest elements are silently discarded so that at most `maxlen`
remain. -/
def dequeAppend (maxlen : Nat) (buf : List String) (line : String) : List String :=
  let b := buf ++ [line]
  if maxlen < b.length then b.drop (b.length - maxlen) else b

/-- `OutputBuffer` (`output_buffer.py`): per-task ring buffers of output
lines, capacity `max_lines` (default 1000).  The `RWLock` serialises
access and is semantically transparent. -/
structure OutputBuffer where
  max_lines : Nat := 1000
  buffers : List (String × List String) := []
deriving DecidableEq, Repr

namespace OutputBuffer

/-- `append(task_id, line)` — create the deque on first use, then append. -/
def append (ob : OutputBuffer) (task_id line : String) : OutputBuffer :=
  let buf := (assocLookup ob.buffers task_id).getD []
  { ob with buffers := assocSet ob.buffers task_id (dequeAppend ob.max_lines buf line) }

/-- `get_all(task_id)` — all lines, `[]` for an unknown task id. -/
def get_all (ob : OutputBuffer) (task_id : String) : List String :=
  (assocLookup ob.buffers task_id).getD []

/-- Python `lst[-n:]` for `n ≥ 0`.  Note `lst[-0:]` is `lst[0:]`, the whole
list — the negative-index shorthand degenerates at zero. -/
def pySliceLast (l : List String) (n : Nat) : List String :=
  if n = 0 then l else l.drop (l.length - n)

/-- `get_recent(task_id, n)` — `all_lines[-n:] if len(all_lines) > n else all_lines`. -/
def get_recent (ob : OutputBuffer) (task_id : String) (n : Nat) : List String :=
  let all_lines := ob.get_all task_id
  if n < all_lines.length then pySliceLast all_lines n else all_lines

/-- A whole sequence of `append` calls, in order. -/
def appendAll (ob : OutputBuffer) (ops : List (String × String)) : OutputBuffer :=
  ops.foldl (fun ob p => ob.append p.1 p.2) ob

end OutputBuffer

/-! ## Task registry — `task_registry.py`

The singleton aspect and the `RWLock` are concurrency plumbing; the data
semantics embedded here are the id-keyed task dict and the session index
(a dict of sets, the set kept as a duplicate-free list).
-/

/-- `TaskRegistry` — id-keyed task map plus session index. -/
structure TaskRegistry where
  tasks : List (String × BackgroundTask) := []
  session_index : List (String × List String) := []
deriving DecidableEq, Repr

namespace TaskRegistry

/-- `get(task_id)` — `None` when absent. -/
def get (reg : TaskRegistry) (task_id : String) : Option BackgroundTask :=
  assocLookup reg.tasks task_id

/-- `register(task)` — store the task and add its id to the session set. -/
def register (reg : TaskRegistry) (t : BackgroundTask) : TaskRegistry :=
  let idx := (assocLookup reg.session_index t.session_id).getD []
  { tasks := assocSet reg.tasks t.task_id t,
    session_index := assocSet reg.session_index t.session_id
      (if t.task_id ∈ idx then idx else idx ++ [t.task_id]) }

/-- `remove(task_id)` — pop the task, discard its id from the session set
(the session entry itself is kept, matching the source). -/
def remove (reg : TaskRegistry) (task_id : String) : Bool × TaskRegistry :=
  match assocLookup reg.tasks task_id with
  | none => (false, reg)
  | some t =>
    (true,
     { tasks := assocErase reg.tasks task_id,
       session_index :=
         match assocLookup reg.session_index t.session_id with
         | some ids =>
           assocSet reg.session_index t.session_id (ids.filter (fun i => i ≠ task_id))
         | none => reg.session_index })

/-- The per-task removal condition of `cleanup_finished_tasks`:
`task.is_finished() and task.completed_at is not None and
now - completed_at > max_age_seconds`. -/
def shouldCleanup (t : BackgroundTask) (now max_age : Nat) : Bool :=
  t.is_finished &&
    (match t.completed_at with
     | some c => decide (max_age < now - c)
     | none => false)

/-- The removal loop of `cleanup_finished_tasks`: remove each collected id,
counting the successful removals. -/
def removeEach : TaskRegistry → List String → Nat × TaskRegistry
  | reg, [] => (0, reg)
  | reg, task_id :: rest =>
    let r := reg.remove task_id
    let res := removeEach r.2 rest
    ((if r.1 then 1 else 0) + res.1, res.2)

/-- `cleanup_finished_tasks(max_age_seconds)` at moment `now`: collect the
finished-and-expired task ids, then remove them one by one, returning the
number removed together with the new registry. -/
def cleanup_finished_tasks (reg : TaskRegistry) (max_age now : Nat) : Nat × TaskRegistry :=
  let tasks_to_remove :=
    (reg.tasks.filter (fun p => shouldCleanup p.2 now max_age)).map Prod.fst
  removeEach reg tasks_to_remove

end TaskRegistry

/-! ## Notification text — `callback_event_builder.py` and `task_notifier.py`

The truthiness test `if task.result:` / `if task.error:` treats both `None`
and the empty string as absent, which the embeddings below mirror.
-/

/-- Append the `Result:` line when the result is truthy (shared shape of
both builders). -/
def withResultLine (lines : List String) (result : Option String) : List String :=
  match result with
  | some r => if r = "" then lines else lines ++ ["Result: " ++ r]
  | none => lines

/-- Append the raw (untruncated) `Error:` line when the error is truthy —
`TaskNotifier.build_message`. -/
def withErrorLineRaw (lines : List String) (error : Option String) : List String :=
  match error with
  | some e => if e = "" then lines else lines ++ ["Error: " ++ e]
  | none => lines

/-- Append the truncated `Error:` line when the error is truthy —
`CallbackEventBuilder.build_notification_text`: the first
`error_preview_max_length` characters, with `"..."` appended when the error
is longer. -/
def withErrorLineTruncated (error_preview_max_length : Nat) (lines : List String)
    (error : Option String) : List String :=
  match error with
  | some e =>
    if e = "" then lines
    else
      let error_preview := strTake e error_preview_max_length
      let error_preview :=
        if error_preview_max_length < e.length then error_preview ++ "..." else error_preview
      lines ++ ["Error: " ++ error_preview]
  | none => lines

namespace CallbackEventBuilder

/-- `STATUS_TEXT_MAP.get(task.status, "unknown")`. -/
def statusText (s : TaskStatus) : String :=
  match s with
  | .completed => "completed successfully"
  | .failed => "failed"
  | .cancelled => "was cancelled"
  | _ => "unknown"

/-- The closing instruction line of `build_notification_text`. -/
def closing_line : String :=
  "Please inform the user about this task completion and provide any relevant details."

/-- `DEFAULT_CONFIG.error_preview_max_length` (`domain/config.py`). -/
def default_error_preview_max_length : Nat := 500

/-- `CallbackEventBuilder.build_notification_text(task)` with the
configuration's `error_preview_max_length` passed explicitly. -/
def build_notification_text (error_preview_max_length : Nat) (task : BackgroundTask) : String :=
  joinLines
    (withErrorLineTruncated error_preview_max_length
      (withResultLine
        ["[Background Task Callback]",
         "Task ID: " ++ task.task_id,
         "Tool: " ++ task.tool_name,
         "Status: " ++ statusText task.status]
        task.result)
      task.error
     ++ ["", closing_line])

end CallbackEventBuilder

namespace TaskNotifier

/-- The status map of `TaskNotifier.build_message`, default `"finished"`. -/
def statusText (s : TaskStatus) : String :=
  match s with
  | .completed => "completed successfully"
  | .failed => "failed"
  | .cancelled => "was cancelled"
  | _ => "finished"

/-- `TaskNotifier.build_message(task)` — header, id, tool, status, then
optional untruncated `Result:`/`Error:` lines; no closing line. -/
def build_message (task : BackgroundTask) : String :=
  joinLines
    (withErrorLineRaw
      (withResultLine
        ["[Background Task Notification]",
         "Task ID: " ++ task.task_id,
         "Tool: " ++ task.tool_name,
         "Status: " ++ statusText task.status]
        task.result)
      task.error)

end TaskNotifier

/-! ## Executor exception branch — `task_executor.py`

`TaskExecutor.execute` catches every handler exception `e`, builds
`error_msg = f"{e}\n{traceback.format_exc()}"`, calls `task.fail(error_msg)`
and — unless the exception is the `WaitInterruptedException` control-flow
signal — stores `TaskNotifier.build_message(task)` as the notification.
-/

/-- The data of a caught Python exception: `str(e)`, the formatted
traceback (`traceback.format_exc()`), and whether the exception is the
`WaitInterruptedException` signal. -/
structure ExcInfo where
  message : String
  formatted_traceback : String
  is_wait_interrupted : Bool
deriving DecidableEq, Repr

namespace TaskExecutor

/-- The `except Exception` branch of `TaskExecutor.execute`
(`task_executor.py` lines 115-135): fail the task with message-plus-
traceback, then build the notification unless the exception is the
wait-interrupted signal. -/
def executeExceptionBranch (task : BackgroundTask) (e : ExcInfo) (now : Nat) : BackgroundTask :=
  let error_msg := e.message ++ "\n" ++ e.formatted_traceback
  let t' := task.fail error_msg now
  if e.is_wait_interrupted then t'
  else { t' with notification_message := some (TaskNotifier.build_message t') }

end TaskExecutor

/-! ## Manager state, interrupt flags and the interrupt-driven wait —
`manager.py` and `llm_tools.py`

`wait_tool_result` polls once per second: each loop iteration first checks
the session's interrupt flag, then re-reads the task, then checks the
elapsed-time budget, and otherwise sleeps.  The environment (new user
messages setting the flag; the task's own concurrent execution) is
embedded as an explicit stimulus per iteration, and elapsed time as the
iteration count (one second per iteration).
-/

/-- Python truthiness of an optional string: `None` and `""` are falsy. -/
def optTruthy : Option String → Bool
  | some s => !(s == "")
  | none => false

/-- The state of the `BackgroundToolManager` singleton that the LLM tools
touch: the registry, the output buffer, the session-keyed interrupt flags,
and the executor's `_running_tasks` / `_cancel_events` maps (the Bool in
`running_tasks` is the asyncio task's `done()` flag; the Bool in
`cancel_events` is the event's set flag). -/
structure ManagerModel where
  registry : TaskRegistry := {}
  output_buffer : OutputBuffer := {}
  interrupt_flags : List (String × Bool) := []
  running_tasks : List (String × Bool) := []
  cancel_events : List (String × Bool) := []
deriving DecidableEq, Repr

/-- `check_interrupt_flag` — `self._interrupt_flags.get(session_id, False)`. -/
def checkInterruptFlag (flags : List (String × Bool)) (session_id : String) : Bool :=
  (assocLookup flags session_id).getD false

/-- `set_interrupt_flag` — `self._interrupt_flags[session_id] = True`. -/
def setInterruptFlag (flags : List (String × Bool)) (session_id : String) :
    List (String × Bool) :=
  assocSet flags session_id true

/-- `clear_interrupt_flag` — `self._interrupt_flags.pop(session_id, None)`. -/
def clearInterruptFlag (flags : List (String × Bool)) (session_id : String) :
    List (String × Bool) :=
  assocErase flags session_id

/-- One wait-loop iteration's external stimulus: whether a new user message
sets the session's interrupt flag before this iteration's checks, and how
the watched task concurrently evolves (the detached execution may progress
or finish — arbitrary, since the wait does not control it). -/
structure WaitEnv where
  set_flag : Bool
  update_task : BackgroundTask → BackgroundTask

/-- The result of `wait_tool_result`: the "not found" / result / timeout
strings are ordinary returns; `interrupted` is the distinguished
`WaitInterruptedException(task_id, session_id)` exit; `outOfTrace` marks a
stimulus trace too short to drive the loop to an exit. -/
inductive WaitOutcome
  | notFound (msg : String)
  | finishedResult (msg : String)
  | interrupted (task_id session_id : String)
  | timedOut (msg : String)
  | outOfTrace
deriving DecidableEq, Repr

/-- The result strings of a finished task in `wait_tool_result`
(`llm_tools.py` lines 107-113 and 138-145). -/
def finishedMessage (task_id : String) (t : BackgroundTask) : String :=
  if optTruthy t.result then
    "Task " ++ task_id ++ " completed: " ++ t.result.getD ""
  else if optTruthy t.error then
    "Task " ++ task_id ++ " failed: " ++ t.error.getD ""
  else
    "Task " ++ task_id ++ " finished with status: " ++ t.status.value

/-- Apply one iteration's external stimulus: the concurrent task update and
the possible arrival of a new user message for the session. -/
def applyWaitEnv (m : ManagerModel) (task_id session_id : String) (env : WaitEnv) :
    ManagerModel :=
  { m with
    registry :=
      { m.registry with
        tasks :=
          match assocLookup m.registry.tasks task_id with
          | some t => assocSet m.registry.tasks task_id (env.update_task t)
          | none => m.registry.tasks },
    interrupt_flags :=
      if env.set_flag then setInterruptFlag m.interrupt_flags session_id
      else m.interrupt_flags }

/-- The `while True` polling loop of `wait_tool_result`: check the
interrupt flag (clear it and raise `WaitInterruptedException` when set),
re-read the task (return its formatted result when finished, clearing the
flag), give up after the timeout, else sleep one second and repeat. -/
def waitLoop (task_id session_id : String) (timeout : Nat) :
    List WaitEnv → Nat → ManagerModel → WaitOutcome × ManagerModel
  | [], _, m => (.outOfTrace, m)
  | env :: rest, elapsed, m =>
    let m1 := applyWaitEnv m task_id session_id env
    if checkInterruptFlag m1.interrupt_flags session_id then
      (.interrupted task_id session_id,
        { m1 with interrupt_flags := clearInterruptFlag m1.interrupt_flags session_id })
    else
      match assocLookup m1.registry.tasks task_id with
      | none => (.notFound ("Error: Task " ++ task_id ++ " not found."), m1)
      | some t =>
        if t.is_finished then
          (.finishedResult (finishedMessage task_id t),
            { m1 with interrupt_flags := clearInterruptFlag m1.interrupt_flags session_id })
        else if timeout ≤ elapsed then
          (.timedOut ("Task " ++ task_id ++ " is still running. Timeout after " ++
              toString timeout ++ "s."),
            { m1 with interrupt_flags := clearInterruptFlag m1.interrupt_flags session_id })
        else
          waitLoop task_id session_id timeout rest (elapsed + 1) m1

/-- `wait_tool_result(event, task_id, timeout)` (`llm_tools.py`): not-found
guard, immediate return for an already-finished task, else clear any stale
interrupt flag and enter the polling loop. -/
def wait_tool_result (task_id session_id : String) (timeout : Nat) (envs : List WaitEnv)
    (m : ManagerModel) : WaitOutcome × ManagerModel :=
  match assocLookup m.registry.tasks task_id with
  | none => (.notFound ("Error: Task " ++ task_id ++ " not found."), m)
  | some t =>
    if t.is_finished then (.finishedResult (finishedMessage task_id t), m)
    else
      let m1 := { m with interrupt_flags := clearInterruptFlag m.interrupt_flags session_id }
      waitLoop task_id session_id timeout envs 0 m1

/-- The task as evolved by the environment alone. -/
def evolveTask (t : BackgroundTask) (envs : List WaitEnv) : BackgroundTask :=
  envs.foldl (fun t env => env.update_task t) t

/-- `get_tool_output(event, task_id, lines)` (`llm_tools.py`): not-found
guard, then the last `lines` buffered lines with a status header. -/
def get_tool_output (m : ManagerModel) (task_id : String) (lines : Nat) : String :=
  match assocLookup m.registry.tasks task_id with
  | none => "Error: Task " ++ task_id ++ " not found."
  | some t =>
    let output := joinLines (m.output_buffer.get_recent task_id lines)
    if output = "" then
      "Task " ++ task_id ++ " (" ++ t.status.value ++ "): No output yet."
    else
      "Task " ++ task_id ++ " (" ++ t.status.value ++ "):\n" ++ output

/-- The boolean decision of `TaskExecutor.cancel`: false when the id is not
in `_running_tasks`, false when the recorded asyncio task is already done,
true otherwise. -/
def cancelDecision (running : List (String × Bool)) (task_id : String) : Bool :=
  match assocLookup running task_id with
  | none => false
  | some done => !done

/-- `TaskExecutor.cancel(task_id)` acting on the manager state: when the
decision is positive the inner handler task is cancelled and the cancel
event (if present) is set. -/
def executorCancelOp (m : ManagerModel) (task_id : String) : Bool × ManagerModel :=
  if cancelDecision m.running_tasks task_id then
    (true,
      { m with cancel_events :=
          match assocLookup m.cancel_events task_id with
          | some _ => assocSet m.cancel_events task_id true
          | none => m.cancel_events })
  else (false, m)

/-- `stop_tool(event, task_id)` (`llm_tools.py`): not-found guard,
already-finished guard, then `manager.stop_task` =
`executor.cancel`. -/
def stop_tool (m : ManagerModel) (task_id : String) : String × ManagerModel :=
  match assocLookup m.registry.tasks task_id with
  | none => ("Error: Task " ++ task_id ++ " not found.", m)
  | some t =>
    if t.is_finished then
      ("Task " ++ task_id ++ " has already finished (" ++ t.status.value ++ ").", m)
    else
      let r := executorCancelOp m task_id
      if r.1 then ("Task " ++ task_id ++ " has been stopped/cancelled.", r.2)
      else ("Failed to stop task " ++ task_id ++ ".", r.2)

/-! ## Detached submission and cancellation — `manager.py` lines 110-164,
`task_executor.py` lines 51-113 and 304-324

`submit_task(..., wait=False)` registers the task and schedules
`executor.execute` with `asyncio.create_task` but does not await it: on the
single-threaded event loop the coroutine's body — which is what populates
`executor._running_tasks` — runs only after the caller next suspends.
`TaskExecutor.cancel` returns False whenever the id is absent from
`_running_tasks`.  The interleaving is embedded as explicit scheduler
steps over the phase of the detached coroutine. -/

/-- Phase of the detached `execute` coroutine: scheduled by
`asyncio.create_task` but not yet run; running (body entered, awaiting the
handler inside `asyncio.wait_for`); or finished (terminal transition done
and the finally block executed). -/
inductive ExecPhase
  | scheduled
  | runningHandler
  | finishedExec
deriving DecidableEq, Repr

/-- The state of one detached submission: the task record, the coroutine
phase, the executor's `_running_tasks` map (id ↦ asyncio `done()` flag)
and whether the inner handler task has been cancelled. -/
structure DetachedExec where
  task : BackgroundTask
  phase : ExecPhase
  running_tasks : List (String × Bool)
  cancel_requested : Bool
deriving Repr

/-- `submit_task(..., wait=False)`: the task is registered (Pending) and
`execute` is scheduled via `asyncio.create_task`; nothing of `execute`'s
body has run when `submit_task` returns, so `_running_tasks` is still
empty for this id. -/
def submitDetached (t : BackgroundTask) : DetachedExec :=
  { task := t, phase := .scheduled, running_tasks := [], cancel_requested := false }

/-- `stop_task` = `TaskExecutor.cancel` in the detached model: False when
the id is not in `_running_tasks` (the coroutine never started or already
finished), else the inner handler task is cancelled. -/
def detachedCancel (s : DetachedExec) (task_id : String) : Bool × DetachedExec :=
  if cancelDecision s.running_tasks task_id then
    (true, { s with cancel_requested := true })
  else (false, s)

/-- The event loop gives the detached `execute` its first slice:
`task.start()`, the handler sub-task is created and recorded in
`_running_tasks`, then `execute` suspends awaiting it. -/
def stepStartExecute (s : DetachedExec) (now : Nat) : DetachedExec :=
  if s.phase = .scheduled then
    { s with
      task := s.task.start now
      phase := .runningHandler
      running_tasks := assocSet s.running_tasks s.task.task_id false }
  else s

/-- The awaited handler concludes: if cancellation was requested the await
raises CancelledError and `execute` marks the task Cancelled, else the
task completes with the handler's result; either way the notification is
built and the finally block removes the id from `_running_tasks`. -/
def stepHandlerOutcome (s : DetachedExec) (r : String) (now : Nat) : DetachedExec :=
  if s.phase = .runningHandler then
    if s.cancel_requested then
      let t' := s.task.cancel now
      { s with
        task := { t' with notification_message := some (TaskNotifier.build_message t') }
        phase := .finishedExec
        running_tasks := assocErase s.running_tasks s.task.task_id }
    else
      let t' := s.task.complete r now
      { s with
        task := { t' with notification_message := some (TaskNotifier.build_message t') }
        phase := .finishedExec
        running_tasks := assocErase s.running_tasks s.task.task_id }
  else s

theorem assocLookup_assocSet_self {α : Type} (l : List (String × α)) (k : String) (v : α) :
    assocLookup (assocSet l k v) k = some v := by
  induction l with
  | nil => simp [assocLookup, assocSet]
  | cons p rest ih =>
    obtain ⟨pk, pv⟩ := p
    by_cases h : pk = k
    · simp [assocSet, assocLookup, h]
    · simp [assocSet, assocLookup, h, ih]

theorem assocLookup_assocSet_ne {α : Type} (l : List (String × α)) (k k' : String) (v : α)
    (h : k' ≠ k) : assocLookup (assocSet l k v) k' = assocLookup l k' := by
  have h' : ¬ k = k' := fun hk => h hk.symm
  induction l with
  | nil => simp [assocLookup, assocSet, h']
  | cons p rest ih =>
    obtain ⟨pk, pv⟩ := p
    by_cases hp : pk = k
    · subst hp
      simp [assocSet, assocLookup, h']
    · by_cases hp' : pk = k'
      · simp [assocSet, assocLookup, hp, hp', h, h']
      · simp [assocSet, assocLookup, hp, hp', ih]

theorem assocLookup_assocErase_self {α : Type} (l : List (String × α)) (k : String) :
    assocLookup (assocErase l k) k = none := by
  induction l with
  | nil => simp [assocLookup, assocErase]
  | cons p rest ih =>
    obtain ⟨pk, pv⟩ := p
    by_cases h : pk = k
    · simp [assocErase, h, ih]
    · simp [assocErase, assocLookup, h, ih]

theorem assocLookup_assocErase_ne {α : Type} (l : List (String × α)) (k k' : String)
    (h : k' ≠ k) : assocLookup (assocErase l k) k' = assocLookup l k' := by
  induction l with
  | nil => simp [assocLookup, assocErase]
  | cons p rest ih =>
    obtain ⟨pk, pv⟩ := p
    by_cases hp : pk = k
    · subst hp
      have h' : ¬ pk = k' := fun hk => h hk.symm
      simp [assocErase, assocLookup, h', ih]
    · simp [assocErase, assocLookup, hp, ih]

theorem assocErase_of_lookup_none {α : Type} (l : List (String × α)) (k : String)
    (h : assocLookup l k = none) : assocErase l k = l := by
  induction l with
  | nil => rfl
  | cons p rest ih =>
    obtain ⟨pk, pv⟩ := p
    by_cases hp : pk = k
    · simp [assocLookup, hp] at h
    · simp only [assocLookup, hp, if_false, ite_false, if_neg hp] at h
      simp [assocErase, hp, ih h]

theorem assocErase_assocSet_self {α : Type} (l : List (String × α)) (k : String) (v : α) :
    assocErase (assocSet l k v) k = assocErase l k := by
  induction l with
  | nil => simp [assocSet, assocErase]
  | cons p rest ih =>
    obtain ⟨pk, pv⟩ := p
    by_cases hp : pk = k
    · simp [assocSet, assocErase, hp]
    · simp [assocSet, assocErase, hp, ih]

theorem assocSet_assocSet_self {α : Type} (l : List (String × α)) (k : String) (v w : α) :
    assocSet (assocSet l k v) k w = assocSet l k w := by
  induction l with
  | nil => simp [assocSet]
  | cons p rest ih =>
    obtain ⟨pk, pv⟩ := p
    by_cases hp : pk = k
    · simp [assocSet, hp]
    · simp [assocSet, hp, ih]

theorem strData_append (a b : String) : (a ++ b).data = a.data ++ b.data := rfl

theorem strLength_append (a b : String) : (a ++ b).length = a.length + b.length := by
  show (a ++ b).data.length = a.data.length + b.data.length
  rw [strData_append, List.length_append]

theorem strAppend_assoc (a b c : String) : a ++ b ++ c = a ++ (b ++ c) := by
  apply String.ext
  simp only [strData_append, List.append_assoc]

theorem strAppend_empty (a : String) : a ++ "" = a := by
  apply String.ext
  simp [strData_append]

theorem strEmpty_append (a : String) : "" ++ a = a := by
  apply String.ext
  simp [strData_append]

theorem strLength_take (s : String) (n : Nat) : (strTake s n).length = min n s.length := by
  show (s.data.take n).length = min n s.data.length
  exact List.length_take n s.data

theorem strLength_eq_zero_iff (s : String) : s.length = 0 ↔ s = "" := by
  constructor
  · intro h
    apply String.ext
    have : s.data.length = 0 := h
    simpa using List.length_eq_zero.mp this
  · intro h; subst h; rfl

/-- If `s` is a member of `lines`, it occurs inside `"\n".join(lines)`. -/
theorem joinLines_contains_of_mem (lines : List String) (s : String) (h : s ∈ lines) :
    StrContains (joinLines lines) s := by
  induction lines with
  | nil => cases h
  | cons x xs ih =>
    match xs, ih with
    | [], _ =>
      have hs : s = x := by simpa using h
      exact ⟨"", "", by simp [joinLines, hs, strEmpty_append, strAppend_empty]⟩
    | y :: tl, ih =>
      have hjoin : joinLines (x :: y :: tl) = x ++ "\n" ++ joinLines (y :: tl) := rfl
      rcases List.mem_cons.mp h with hs | hs
      · exact ⟨"", "\n" ++ joinLines (y :: tl), by
          rw [hjoin, hs, strEmpty_append, strAppend_assoc]⟩
      · obtain ⟨pre, post, hpp⟩ := ih hs
        exact ⟨x ++ "\n" ++ pre, post, by
          rw [hjoin, hpp]; simp [strAppend_assoc]⟩

/-- `"\n".join(lines ++ [last])` ends with `last`. -/
theorem joinLines_endsWith (lines : List String) (last : String) :
    StrEndsWith (joinLines (lines ++ [last])) last := by
  induction lines with
  | nil => exact ⟨"", by simp [joinLines, strEmpty_append]⟩
  | cons x xs ih =>
    obtain ⟨pre, hpre⟩ := ih
    have hne : xs ++ [last] ≠ [] := by simp
    have hjoin : joinLines (x :: (xs ++ [last])) = x ++ "\n" ++ joinLines (xs ++ [last]) := by
      cases hxs : xs ++ [last] with
      | nil => exact absurd hxs hne
      | cons a tl => rfl
    exact ⟨x ++ "\n" ++ pre, by
      rw [List.cons_append, hjoin, hpre]; simp [strAppend_assoc]⟩

theorem signalCompletion_status (t : BackgroundTask) :
    (t.signalCompletion).status = t.status := by
  unfold BackgroundTask.signalCompletion
  cases t.completion_event <;> rfl

theorem signalCompletion_result (t : BackgroundTask) :
    (t.signalCompletion).result = t.result := by
  unfold BackgroundTask.signalCompletion
  cases t.completion_event <;> rfl

theorem signalCompletion_error (t : BackgroundTask) :
    (t.signalCompletion).error = t.error := by
  unfold BackgroundTask.signalCompletion
  cases t.completion_event <;> rfl

theorem signalCompletion_completed_at (t : BackgroundTask) :
    (t.signalCompletion).completed_at = t.completed_at := by
  unfold BackgroundTask.signalCompletion
  cases t.completion_event <;> rfl

/-- The outcome invariant maintained by every reachable task: `result` and
`error` are determined by the status. -/
theorem reachable_outcome_invariant (t : BackgroundTask) (h : ReachableTask t) :
    ((t.status = .pending ∨ t.status = .running) → t.result = none ∧ t.error = none) ∧
    (t.status = .completed → t.result.isSome ∧ t.error = none) ∧
    (t.status = .failed → t.error.isSome ∧ t.result = none) ∧
    (t.status = .cancelled → t.result = none ∧ t.error = none) := by
  induction h with
  | new id name args sess now =>
    refine ⟨fun _ => ⟨rfl, rfl⟩, fun hc => ?_, fun hc => ?_, fun hc => ⟨rfl, rfl⟩⟩
    · exact absurd hc (by simp [BackgroundTask.new])
    · exact absurd hc (by simp [BackgroundTask.new])
  | start t now _ hpend ih =>
    obtain ⟨hpr, _, _, _⟩ := ih
    have := hpr (Or.inl hpend)
    refine ⟨fun _ => ⟨this.1, this.2⟩, fun hc => ?_, fun hc => ?_, fun hc => ?_⟩
    · exact absurd hc (by simp [BackgroundTask.start])
    · exact absurd hc (by simp [BackgroundTask.start])
    · exact absurd hc (by simp [BackgroundTask.start])
  | complete t r now ht hnf ih =>
    have hstat : (t.complete r now).status = .completed := by
      simp [BackgroundTask.complete, signalCompletion_status]
    have herr : (t.complete r now).error = t.error := by
      simp [BackgroundTask.complete, signalCompletion_error]
    have hres : (t.complete r now).result = some r := by
      simp [BackgroundTask.complete, signalCompletion_result]
    have htv : t.error = none := by
      rcases ht0 : t.status with h | h | h | h | h
      all_goals first
        | exact (ih.1 (Or.inl ht0)).2
        | exact (ih.1 (Or.inr ht0)).2
        | (exfalso; rw [BackgroundTask.is_finished, ht0] at hnf; simp at hnf)
    refine ⟨fun hc => ?_, fun _ => ⟨by simp [hres], by rw [herr, htv]⟩,
      fun hc => ?_, fun hc => ?_⟩
    · rcases hc with hc | hc <;> rw [hstat] at hc <;> cases hc
    · rw [hstat] at hc; cases hc
    · rw [hstat] at hc; cases hc
  | fail t e now ht hnf ih =>
    have hstat : (t.fail e now).status = .failed := by
      simp [BackgroundTask.fail, signalCompletion_status]
    have herr : (t.fail e now).error = some e := by
      simp [BackgroundTask.fail, signalCompletion_error]
    have hres : (t.fail e now).result = t.result := by
      simp [BackgroundTask.fail, signalCompletion_result]
    have htv : t.result = none := by
      rcases ht0 : t.status with h | h | h | h | h
      all_goals first
        | exact (ih.1 (Or.inl ht0)).1
        | exact (ih.1 (Or.inr ht0)).1
        | (exfalso; rw [BackgroundTask.is_finished, ht0] at hnf; simp at hnf)
    refine ⟨fun hc => ?_, fun hc => ?_, fun _ => ⟨by simp [herr], by rw [hres, htv]⟩,
      fun hc => ?_⟩
    · rcases hc with hc | hc <;> rw [hstat] at hc <;> cases hc
    · rw [hstat] at hc; cases hc
    · rw [hstat] at hc; cases hc
  | cancel t now ht hnf ih =>
    have hstat : (t.cancel now).status = .cancelled := by
      simp [BackgroundTask.cancel, signalCompletion_status]
    have herr : (t.cancel now).error = t.error := by
      simp [BackgroundTask.cancel, signalCompletion_error]
    have hres : (t.cancel now).result = t.result := by
      simp [BackgroundTask.cancel, signalCompletion_result]
    have htv : t.result = none ∧ t.error = none := by
      rcases ht0 : t.status with h | h | h | h | h
      all_goals first
        | exact ih.1 (Or.inl ht0)
        | exact ih.1 (Or.inr ht0)
        | (exfalso; rw [BackgroundTask.is_finished, ht0] at hnf; simp at hnf)
    refine ⟨fun hc => ?_, fun hc => ?_, fun hc => ?_,
      fun _ => ⟨by rw [hres, htv.1], by rw [herr, htv.2]⟩⟩
    · rcases hc with hc | hc <;> rw [hstat] at hc <;> cases hc
    · rw [hstat] at hc; cases hc
    · rw [hstat] at hc; cases hc

/-- C1 counterexample: a task that is started and then cancelled (the
`cancel()` terminal transition of `task_state.py`) is finished with BOTH
`result` and `error` still null, so "exactly one of result/error is
non-null" fails after `cancel()`. -/
theorem C1_counterexample :
    ((((BackgroundTask.new "t1" "demo_tool" [] "sess" 0).start 1).cancel 2).is_finished = true) ∧
    (((BackgroundTask.new "t1" "demo_tool" [] "sess" 0).start 1).cancel 2).result = none ∧
    (((BackgroundTask.new "t1" "demo_tool" [] "sess" 0).start 1).cancel 2).error = none ∧
    ¬ (((((BackgroundTask.new "t1" "demo_tool" [] "sess" 0).start 1).cancel 2).result ≠ none ∧
          ((((BackgroundTask.new "t1" "demo_tool" [] "sess" 0).start 1).cancel 2).error = none)) ∨
       (((((BackgroundTask.new "t1" "demo_tool" [] "sess" 0).start 1).cancel 2).result = none) ∧
          ((((BackgroundTask.new "t1" "demo_tool" [] "sess" 0).start 1).cancel 2).error ≠ none))) := by
  decide

/-- C1 (amended): for every task reachable through the lifecycle
operations, once `is_finished()` is true at most one of `result`/`error` is
non-null; after `complete(result)` exactly `result` is non-null and after
`fail(error)` exactly `error` is non-null, while after `cancel()` both
remain null. -/
theorem C1_amended (t : BackgroundTask) (h : ReachableTask t)
    (hf : t.is_finished = true) :
    (¬ (t.result ≠ none ∧ t.error ≠ none)) ∧
    (t.status = .completed → t.result ≠ none ∧ t.error = none) ∧
    (t.status = .failed → t.result = none ∧ t.error ≠ none) ∧
    (t.status = .cancelled → t.result = none ∧ t.error = none) := by
  obtain ⟨hpr, hc, hfl, hcl⟩ := reachable_outcome_invariant t h
  have hterm : t.status = .completed ∨ t.status = .failed ∨ t.status = .cancelled := by
    rcases hs : t.status with h' | h' | h' | h' | h'
    · rw [BackgroundTask.is_finished, hs] at hf; simp at hf
    · rw [BackgroundTask.is_finished, hs] at hf; simp at hf
    · exact Or.inl rfl
    · exact Or.inr (Or.inl rfl)
    · exact Or.inr (Or.inr rfl)
  refine ⟨?_, fun hs => ?_, fun hs => ?_, fun hs => hcl hs⟩
  · rcases hterm with hs | hs | hs
    · obtain ⟨_, he⟩ := hc hs
      exact fun hb => hb.2 he
    · obtain ⟨_, hr⟩ := hfl hs
      exact fun hb => hb.1 hr
    · obtain ⟨hr, _⟩ := hcl hs
      exact fun hb => hb.1 hr
  · obtain ⟨hr, he⟩ := hc hs
    refine ⟨fun hn => ?_, he⟩
    rw [hn] at hr
    simp at hr
  · obtain ⟨he, hr⟩ := hfl hs
    refine ⟨hr, fun hn => ?_⟩
    rw [hn] at he
    simp at he

/-- Witness for C1 (amended) at a concrete completed task. -/
theorem C1_amended_witness :
    let t := ((BackgroundTask.new "t1" "demo_tool" [] "sess" 0).start 1).complete "ok" 2
    (¬ (t.result ≠ none ∧ t.error ≠ none)) ∧
    (t.status = .completed → t.result ≠ none ∧ t.error = none) ∧
    (t.status = .failed → t.result = none ∧ t.error ≠ none) ∧
    (t.status = .cancelled → t.result = none ∧ t.error = none) :=
  C1_amended _
    (ReachableTask.complete _ "ok" 2
      (ReachableTask.start _ 1 (ReachableTask.new "t1" "demo_tool" [] "sess" 0) rfl)
      (by decide))
    (by decide)

/-- C5: for every task reachable through the lifecycle operations
(construction as Pending, `start`, `complete`, `fail`, `cancel`),
`is_finished()` is true iff `completed_at` is non-null iff the status is
Completed, Failed or Cancelled. -/
theorem C5_finished_iff_completed_at (t : BackgroundTask) (h : ReachableTask t) :
    (t.is_finished = true ↔ t.completed_at ≠ none) ∧
    (t.is_finished = true ↔
      (t.status = .completed ∨ t.status = .failed ∨ t.status = .cancelled)) := by
  constructor
  · induction h with
    | new id name args sess now =>
      simp [BackgroundTask.new, BackgroundTask.is_finished]
    | start t now ht hpend ih =>
      have h1 : (t.start now).is_finished = false := by
        simp [BackgroundTask.start, BackgroundTask.is_finished]
      have h2 : (t.start now).completed_at = t.completed_at := rfl
      have h3 : t.is_finished = false := by
        rw [BackgroundTask.is_finished, hpend]; rfl
      rw [h1, h2]
      rw [h3] at ih
      simp only [Bool.false_eq_true, false_iff] at ih ⊢
      exact ih
    | complete t r now ht hnf ih =>
      have h1 : (t.complete r now).is_finished = true := by
        simp [BackgroundTask.complete, BackgroundTask.is_finished, signalCompletion_status]
      have h2 : (t.complete r now).completed_at = some now := by
        simp [BackgroundTask.complete, signalCompletion_completed_at]
      rw [h1, h2]; simp
    | fail t e now ht hnf ih =>
      have h1 : (t.fail e now).is_finished = true := by
        simp [BackgroundTask.fail, BackgroundTask.is_finished, signalCompletion_status]
      have h2 : (t.fail e now).completed_at = some now := by
        simp [BackgroundTask.fail, signalCompletion_completed_at]
      rw [h1, h2]; simp
    | cancel t now ht hnf ih =>
      have h1 : (t.cancel now).is_finished = true := by
        simp [BackgroundTask.cancel, BackgroundTask.is_finished, signalCompletion_status]
      have h2 : (t.cancel now).completed_at = some now := by
        simp [BackgroundTask.cancel, signalCompletion_completed_at]
      rw [h1, h2]; simp
  · rw [BackgroundTask.is_finished]
    rcases hs : t.status with h' | h' | h' | h' | h' <;> simp

/-- Witness for C5 at a concrete failed task. -/
theorem C5_witness :
    let t := ((BackgroundTask.new "t2" "demo_tool" [] "sess" 0).start 1).fail "boom" 2
    (t.is_finished = true ↔ t.completed_at ≠ none) ∧
    (t.is_finished = true ↔
      (t.status = .completed ∨ t.status = .failed ∨ t.status = .cancelled)) :=
  C5_finished_iff_completed_at _
    (ReachableTask.fail _ "boom" 2
      (ReachableTask.start _ 1 (ReachableTask.new "t2" "demo_tool" [] "sess" 0) rfl)
      (by decide))

theorem dequeAppend_length_le (maxlen : Nat) (buf : List String) (line : String) :
    (dequeAppend maxlen buf line).length ≤ maxlen ∨
      (dequeAppend maxlen buf line).length = buf.length + 1 := by
  unfold dequeAppend
  by_cases h : maxlen < (buf ++ [line]).length
  · left
    simp only [h, if_true]
    rw [List.length_drop]
    omega
  · right
    simp only [h, if_false, ite_false, if_neg h]
    simp

theorem dequeAppend_length_le_of_le (maxlen : Nat) (buf : List String) (line : String)
    (h : buf.length ≤ maxlen) : (dequeAppend maxlen buf line).length ≤ maxlen := by
  unfold dequeAppend
  by_cases hlt : maxlen < (buf ++ [line]).length
  · simp only [hlt, if_true]
    rw [List.length_drop]
    omega
  · simp only [hlt, if_false, ite_false, if_neg hlt]
    simp only [List.length_append, List.length_cons, List.length_nil] at hlt ⊢
    omega

theorem OutputBuffer.append_max_lines (ob : OutputBuffer) (tid line : String) :
    (ob.append tid line).max_lines = ob.max_lines := rfl

theorem OutputBuffer.append_bounded (ob : OutputBuffer) (tid line : String)
    (h : ∀ id, (ob.get_all id).length ≤ ob.max_lines) :
    ∀ id, ((ob.append tid line).get_all id).length ≤ ob.max_lines := by
  intro id
  by_cases hid : id = tid
  · subst hid
    unfold OutputBuffer.append OutputBuffer.get_all
    simp only [assocLookup_assocSet_self, Option.getD_some]
    exact dequeAppend_length_le_of_le _ _ _ (h id)
  · unfold OutputBuffer.append OutputBuffer.get_all
    simp only [assocLookup_assocSet_ne _ _ _ _ hid]
    exact h id

theorem OutputBuffer.appendAll_bounded (ops : List (String × String)) (ob : OutputBuffer)
    (h : ∀ id, (ob.get_all id).length ≤ ob.max_lines) :
    ∀ id, ((ob.appendAll ops).get_all id).length ≤ ob.max_lines := by
  induction ops generalizing ob with
  | nil => exact h
  | cons p rest ih =>
    have hstep := OutputBuffer.append_bounded ob p.1 p.2 h
    exact ih (ob.append p.1 p.2) hstep

/-- C6: for every capacity `c` and every sequence of appends starting from
an empty `OutputBuffer`, each task's buffer holds at most `c` lines; the
default capacity is 1000; and concretely, with capacity 5 and the ten
appended lines "line 0".."line 9" the buffer holds exactly
"line 5".."line 9" in order (the oldest lines were silently dropped). -/
theorem C6_output_buffer_capacity :
    (∀ (c : Nat) (ops : List (String × String)) (id : String),
      ((OutputBuffer.appendAll { max_lines := c, buffers := [] } ops).get_all id).length ≤ c) ∧
    ({ } : OutputBuffer).max_lines = 1000 ∧
    (OutputBuffer.appendAll { max_lines := 5, buffers := [] }
        ((List.range 10).map (fun i => ("t", "line " ++ toString i)))).get_all "t" =
      ["line 5", "line 6", "line 7", "line 8", "line 9"] := by
  refine ⟨fun c ops id => ?_, rfl, by decide⟩
  have h0 : ∀ id', ((({ max_lines := c, buffers := [] } : OutputBuffer).get_all id')).length ≤ c := by
    intro id'
    simp [OutputBuffer.get_all, assocLookup]
  exact OutputBuffer.appendAll_bounded ops _ h0 id

/-- C7 counterexample: with two lines "a","b" buffered for task "t",
`get_recent("t", 0)` returns both lines, not the empty list — Python's
`all_lines[-0:]` is the whole list, so `n = 0` does not yield
`min(0, available) = 0` lines. -/
theorem C7_counterexample :
    ((((({ max_lines := 5, buffers := [] } : OutputBuffer).append "t" "a").append "t" "b").get_recent "t" 0) = ["a", "b"]) ∧
    ((((({ max_lines := 5, buffers := [] } : OutputBuffer).append "t" "a").append "t" "b").get_recent "t" 0) ≠ []) := by
  decide

/-- C7 (amended): for `n ≥ 1`, `get_recent(id, n)` returns exactly the last
`min(n, available)` lines in original append order (formally: the suffix
obtained by dropping `available - n` lines, whose length is
`min n available`); for `n = 0` it returns ALL available lines (Python
`[-0:]` slice); an unknown task id yields the empty list for every `n`. -/
theorem C7_get_recent (ob : OutputBuffer) (id : String) (n : Nat) :
    (1 ≤ n →
      ob.get_recent id n = (ob.get_all id).drop ((ob.get_all id).length - n) ∧
      (ob.get_recent id n).length = min n (ob.get_all id).length) ∧
    (ob.get_recent id 0 = ob.get_all id) ∧
    (assocLookup ob.buffers id = none → ∀ m, ob.get_recent id m = []) := by
  refine ⟨fun hn => ?_, ?_, fun hnone m => ?_⟩
  · unfold OutputBuffer.get_recent OutputBuffer.pySliceLast
    by_cases hlt : n < (ob.get_all id).length
    · have hn0 : ¬ n = 0 := by omega
      simp only [hlt, if_true, hn0, if_false, ite_false, if_neg hn0]
      constructor
      · trivial
      · rw [List.length_drop]
        omega
    · simp only [hlt, if_false, ite_false, if_neg hlt]
      have hge : (ob.get_all id).length ≤ n := by omega
      constructor
      · rw [Nat.sub_eq_zero_of_le hge, List.drop_zero]
      · omega
  · unfold OutputBuffer.get_recent OutputBuffer.pySliceLast
    by_cases hlt : 0 < (ob.get_all id).length
    · simp [hlt]
    · simp [hlt]
  · have hempty : ob.get_all id = [] := by
      unfold OutputBuffer.get_all
      rw [hnone]; rfl
    unfold OutputBuffer.get_recent
    rw [hempty]
    simp [OutputBuffer.pySliceLast]

/-- Witness for C7 (amended): three buffered lines, `n = 2` returns the
last two in order. -/
theorem C7_get_recent_witness :
    ((OutputBuffer.appendAll { max_lines := 5, buffers := [] }
        [("t", "a"), ("t", "b"), ("t", "c")]).get_recent "t" 2 = ["b", "c"]) ∧
    (1 : Nat) ≤ 2 := by
  constructor
  · have h := ((C7_get_recent
      (OutputBuffer.appendAll { max_lines := 5, buffers := [] }
        [("t", "a"), ("t", "b"), ("t", "c")]) "t" 2).1 (by decide)).1
    rw [h]
    decide
  · decide

theorem assocLookup_eq_some_of_mem {α : Type} (l : List (String × α)) (k : String) (v : α)
    (hn : (l.map Prod.fst).Nodup) (hm : (k, v) ∈ l) : assocLookup l k = some v := by
  induction l with
  | nil => cases hm
  | cons p rest ih =>
    obtain ⟨pk, pv⟩ := p
    rcases List.mem_cons.mp hm with he | he
    · cases he
      simp [assocLookup]
    · have hk : pk ≠ k := by
        intro hkk
        subst hkk
        have : pk ∈ rest.map Prod.fst := List.mem_map.mpr ⟨(pk, v), he, rfl⟩
        exact (List.nodup_cons.mp hn).1 this
      have := ih (List.nodup_cons.mp hn).2 he
      simp [assocLookup, hk, this]

theorem mem_of_assocLookup_eq_some {α : Type} (l : List (String × α)) (k : String) (v : α)
    (h : assocLookup l k = some v) : (k, v) ∈ l := by
  induction l with
  | nil => cases h
  | cons p rest ih =>
    obtain ⟨pk, pv⟩ := p
    by_cases hk : pk = k
    · subst hk
      simp only [assocLookup, eq_self_iff_true, if_true, Option.some.injEq] at h
      subst h
      exact List.mem_cons_self _ _
    · simp only [assocLookup, hk, if_false, ite_false, if_neg hk] at h
      exact List.mem_cons_of_mem _ (ih h)

theorem TaskRegistry.remove_get (reg : TaskRegistry) (id id' : String) :
    ((reg.remove id).2).get id' = if id' = id then none else reg.get id' := by
  unfold TaskRegistry.remove TaskRegistry.get
  cases h : assocLookup reg.tasks id with
  | none =>
    by_cases hid : id' = id
    · subst hid; simp [h]
    · simp [hid]
  | some t =>
    by_cases hid : id' = id
    · subst hid
      simp [assocLookup_assocErase_self]
    · simp [hid, assocLookup_assocErase_ne _ _ _ hid]

theorem TaskRegistry.remove_success (reg : TaskRegistry) (id : String) :
    (reg.remove id).1 = (reg.get id).isSome := by
  unfold TaskRegistry.remove TaskRegistry.get
  cases h : assocLookup reg.tasks id <;> simp [h]

theorem TaskRegistry.removeEach_get (ids : List String) (reg : TaskRegistry) (id' : String) :
    ((TaskRegistry.removeEach reg ids).2).get id' =
      if id' ∈ ids then none else reg.get id' := by
  induction ids generalizing reg with
  | nil => simp [TaskRegistry.removeEach]
  | cons id rest ih =>
    show ((TaskRegistry.removeEach (reg.remove id).2 rest).2).get id' = _
    rw [ih]
    by_cases h1 : id' ∈ rest
    · simp [h1]
    · rw [TaskRegistry.remove_get]
      by_cases h2 : id' = id
      · simp [h1, h2]
      · simp [h1, h2, List.mem_cons]

theorem TaskRegistry.removeEach_count (ids : List String) (reg : TaskRegistry)
    (hnd : ids.Nodup) (hin : ∀ i ∈ ids, (reg.get i).isSome = true) :
    (TaskRegistry.removeEach reg ids).1 = ids.length := by
  induction ids generalizing reg with
  | nil => rfl
  | cons id rest ih =>
    have hsucc : (reg.remove id).1 = true := by
      rw [TaskRegistry.remove_success]
      exact hin id (List.mem_cons_self _ _)
    have hrest : ∀ i ∈ rest, (((reg.remove id).2).get i).isSome = true := by
      intro i hi
      rw [TaskRegistry.remove_get]
      have hne : i ≠ id := by
        intro he; subst he
        exact (List.nodup_cons.mp hnd).1 hi
      rw [if_neg hne]
      exact hin i (List.mem_cons_of_mem _ hi)
    show (if (reg.remove id).1 then 1 else 0) +
        (TaskRegistry.removeEach (reg.remove id).2 rest).1 = rest.length + 1
    rw [hsucc, ih _ (List.nodup_cons.mp hnd).2 hrest]
    simp [Nat.add_comm]

theorem TaskRegistry.shouldCleanup_iff (t : BackgroundTask) (now max_age : Nat) :
    TaskRegistry.shouldCleanup t now max_age = true ↔
      (t.is_finished = true ∧ ∃ c, t.completed_at = some c ∧ max_age < now - c) := by
  unfold TaskRegistry.shouldCleanup
  cases h : t.completed_at with
  | none => simp [h]
  | some c => simp [h]

theorem TaskRegistry.mem_toRemove_iff (reg : TaskRegistry) (max_age now : Nat)
    (hnodup : (reg.tasks.map Prod.fst).Nodup) (id : String) (t : BackgroundTask)
    (hget : reg.get id = some t) :
    (id ∈ (reg.tasks.filter (fun p => TaskRegistry.shouldCleanup p.2 now max_age)).map Prod.fst) ↔
      TaskRegistry.shouldCleanup t now max_age = true := by
  constructor
  · intro hmem
    obtain ⟨p, hp, hpid⟩ := List.mem_map.mp hmem
    obtain ⟨hptasks, hpclean⟩ := List.mem_filter.mp hp
    obtain ⟨pk, pv⟩ := p
    cases hpid
    have : assocLookup reg.tasks pk = some pv :=
      assocLookup_eq_some_of_mem _ _ _ hnodup hptasks
    rw [TaskRegistry.get] at hget
    rw [hget] at this
    cases this
    exact hpclean
  · intro hclean
    have hmem : (id, t) ∈ reg.tasks := mem_of_assocLookup_eq_some _ _ _ hget
    exact List.mem_map.mpr ⟨(id, t), List.mem_filter.mpr ⟨hmem, hclean⟩, rfl⟩

/-- C8: `cleanup_finished_tasks(max_age)` at moment `now` removes a task
iff it is finished and its age since `completed_at` exceeds `max_age`; it
never removes Pending or Running tasks regardless of age; its return value
equals the number of tasks removed; and with `max_age = 0` every finished
task whose completion lies strictly in the past is removed. -/
theorem C8_cleanup_finished_tasks (reg : TaskRegistry) (max_age now : Nat)
    (hnodup : (reg.tasks.map Prod.fst).Nodup) :
    (∀ id t, reg.get id = some t →
      (((reg.cleanup_finished_tasks max_age now).2.get id = none) ↔
        (t.is_finished = true ∧ ∃ c, t.completed_at = some c ∧ max_age < now - c)) ∧
      ((reg.cleanup_finished_tasks max_age now).2.get id = none ∨
       (reg.cleanup_finished_tasks max_age now).2.get id = some t)) ∧
    (∀ id t, reg.get id = some t → (t.status = .pending ∨ t.status = .running) →
      (reg.cleanup_finished_tasks max_age now).2.get id = some t) ∧
    ((reg.cleanup_finished_tasks max_age now).1 =
      (reg.tasks.filter (fun p => TaskRegistry.shouldCleanup p.2 now max_age)).length) ∧
    (∀ id t, reg.get id = some t → t.is_finished = true →
      (∃ c, t.completed_at = some c ∧ c < now) → max_age = 0 →
      (reg.cleanup_finished_tasks max_age now).2.get id = none) := by
  have hget_after : ∀ id, (reg.cleanup_finished_tasks max_age now).2.get id =
      if id ∈ (reg.tasks.filter (fun p => TaskRegistry.shouldCleanup p.2 now max_age)).map Prod.fst
      then none else reg.get id := by
    intro id
    exact TaskRegistry.removeEach_get _ _ _
  refine ⟨fun id t hget => ⟨?_, ?_⟩, fun id t hget hstat => ?_, ?_, fun id t hget hfin hc h0 => ?_⟩
  · rw [hget_after id]
    rw [← TaskRegistry.shouldCleanup_iff]
    by_cases hmem : id ∈ (reg.tasks.filter
        (fun p => TaskRegistry.shouldCleanup p.2 now max_age)).map Prod.fst
    · simp only [hmem, if_true, true_iff]
      exact (TaskRegistry.mem_toRemove_iff reg max_age now hnodup id t hget).mp hmem
    · simp only [hmem, if_false, ite_false]
      rw [hget]
      constructor
      · intro hs; cases hs
      · intro hclean
        exact absurd ((TaskRegistry.mem_toRemove_iff reg max_age now hnodup id t hget).mpr hclean) hmem
  · rw [hget_after id]
    by_cases hmem : id ∈ (reg.tasks.filter
        (fun p => TaskRegistry.shouldCleanup p.2 now max_age)).map Prod.fst
    · simp [hmem]
    · simp [hmem, hget]
  · rw [hget_after id]
    have hnotfin : TaskRegistry.shouldCleanup t now max_age = false := by
      unfold TaskRegistry.shouldCleanup
      have : t.is_finished = false := by
        rw [BackgroundTask.is_finished]
        rcases hstat with hs | hs <;> rw [hs] <;> rfl
      rw [this]
      rfl
    have hmem : ¬ (id ∈ (reg.tasks.filter
        (fun p => TaskRegistry.shouldCleanup p.2 now max_age)).map Prod.fst) := by
      intro hm
      have := (TaskRegistry.mem_toRemove_iff reg max_age now hnodup id t hget).mp hm
      rw [hnotfin] at this
      cases this
    simp [hmem, hget]
  · show (TaskRegistry.removeEach reg
        ((reg.tasks.filter (fun p => TaskRegistry.shouldCleanup p.2 now max_age)).map Prod.fst)).1 = _
    rw [TaskRegistry.removeEach_count]
    · exact List.length_map _ _
    · exact (List.filter_sublist reg.tasks).map Prod.fst |>.nodup hnodup
    · intro i hi
      obtain ⟨p, hp, hpid⟩ := List.mem_map.mp hi
      obtain ⟨hptasks, _⟩ := List.mem_filter.mp hp
      obtain ⟨pk, pv⟩ := p
      cases hpid
      rw [TaskRegistry.get, assocLookup_eq_some_of_mem _ _ _ hnodup hptasks]
      rfl
  · rw [hget_after id]
    obtain ⟨c, hcc, hlt⟩ := hc
    have hclean : TaskRegistry.shouldCleanup t now max_age = true := by
      rw [TaskRegistry.shouldCleanup_iff]
      exact ⟨hfin, c, hcc, by omega⟩
    have hmem := (TaskRegistry.mem_toRemove_iff reg max_age now hnodup id t hget).mpr hclean
    simp [hmem]

/-- Witness for C8: a registry with an old pending task "a", an old
completed task "b" and a fresh completed task "c"; cleanup with
`max_age = 50` at `now = 100` removes exactly "b". -/
theorem C8_witness :
    let t1 := BackgroundTask.new "a" "tool" [] "s" 0
    let t2 := ((BackgroundTask.new "b" "tool" [] "s" 0).start 1).complete "ok" 10
    let t3 := ((BackgroundTask.new "c" "tool" [] "s" 0).start 1).complete "ok" 99
    let reg : TaskRegistry :=
      { tasks := [("a", t1), ("b", t2), ("c", t3)], session_index := [("s", ["a", "b", "c"])] }
    ((reg.cleanup_finished_tasks 50 100).2.get "b" = none) ∧
    ((reg.cleanup_finished_tasks 50 100).2.get "a" = some t1) ∧
    ((reg.cleanup_finished_tasks 50 100).2.get "c" = some t3) ∧
    ((reg.cleanup_finished_tasks 50 100).1 = 1) := by
  intro t1 t2 t3 reg
  have h := C8_cleanup_finished_tasks reg 50 100 (by decide)
  refine ⟨?_, ?_, ?_, ?_⟩
  · exact ((h.1 "b" t2 (by decide)).1).mpr ⟨by decide, 10, by decide, by decide⟩
  · exact h.2.1 "a" t1 (by decide) (Or.inl (by decide))
  · rcases (h.1 "c" t3 (by decide)).2 with hn | hs
    · exfalso
      have := ((h.1 "c" t3 (by decide)).1).mp hn
      obtain ⟨_, c, hcc, hlt⟩ := this
      have : c = 99 := by
        have hd : t3.completed_at = some 99 := by decide
        rw [hd] at hcc
        cases hcc
        rfl
      omega
    · exact hs
  · rw [h.2.2.1]
    decide

theorem strContains_of_append_left (s a b : String) (h : StrContains s (a ++ b)) :
    StrContains s b := by
  obtain ⟨pre, post, hp⟩ := h
  exact ⟨pre ++ a, post, by rw [hp]; simp [strAppend_assoc]⟩

theorem strContains_of_append_right (s a b : String) (h : StrContains s (a ++ b)) :
    StrContains s a := by
  obtain ⟨pre, post, hp⟩ := h
  exact ⟨pre, b ++ post, by rw [hp]; simp [strAppend_assoc]⟩

theorem mem_withResultLine_of_mem (lines : List String) (r : Option String) (s : String)
    (h : s ∈ lines) : s ∈ withResultLine lines r := by
  unfold withResultLine
  cases r with
  | none => exact h
  | some v =>
    by_cases hv : v = ""
    · simp [hv, h]
    · simp [hv]
      exact Or.inl h

theorem mem_withErrorLineTruncated_of_mem (cfg : Nat) (lines : List String)
    (e : Option String) (s : String) (h : s ∈ lines) :
    s ∈ withErrorLineTruncated cfg lines e := by
  unfold withErrorLineTruncated
  cases e with
  | none => exact h
  | some v =>
    by_cases hv : v = ""
    · simp [hv, h]
    · simp [hv]
      exact Or.inl h

theorem joinLines_length_cons (x : String) (xs : List String) (h : xs ≠ []) :
    (joinLines (x :: xs)).length = x.length + 1 + (joinLines xs).length := by
  cases xs with
  | nil => exact absurd rfl h
  | cons y tl =>
    show (x ++ "\n" ++ joinLines (y :: tl)).length = _
    rw [strLength_append, strLength_append]
    rfl

theorem joinLines_length_seven (a b c d e f g : String) :
    (joinLines [a, b, c, d, e, f, g]).length =
      a.length + b.length + c.length + d.length + e.length + f.length + g.length + 6 := by
  have hnl : ("\n" : String).length = 1 := rfl
  show (a ++ "\n" ++ (b ++ "\n" ++ (c ++ "\n" ++ (d ++ "\n" ++ (e ++ "\n" ++ (f ++ "\n" ++ g)))))).length = _
  simp only [strLength_append, hnl]
  omega

/-- C3: the completion notification built by
`CallbackEventBuilder.build_notification_text` contains the task's result
verbatim; it always ends with the closing instruction line; the configured
default error-preview cap is 500 characters; and for a Failed task with a
1000-character error and `error_preview_max_length = 100` the text contains
the `"..."` ellipsis marker and is strictly shorter than the raw error
(given the task id and tool name are of reasonable length, here jointly at
most 500 characters). -/
theorem C3_notification_roundtrip (cfg : Nat) (t : BackgroundTask) :
    (∀ r, t.result = some r →
      StrContains (CallbackEventBuilder.build_notification_text cfg t) r) ∧
    StrEndsWith (CallbackEventBuilder.build_notification_text cfg t)
      CallbackEventBuilder.closing_line ∧
    CallbackEventBuilder.default_error_preview_max_length = 500 ∧
    (∀ e, t.status = .failed → t.result = none → t.error = some e →
      e.length = 1000 → cfg = 100 → t.task_id.length + t.tool_name.length ≤ 500 →
      StrContains (CallbackEventBuilder.build_notification_text cfg t) "..." ∧
      (CallbackEventBuilder.build_notification_text cfg t).length < e.length) := by
  refine ⟨fun r hr => ?_, ?_, rfl, fun e hst hres herr hlen hcfg hbound => ?_⟩
  · by_cases hre : r = ""
    · subst hre
      exact ⟨CallbackEventBuilder.build_notification_text cfg t, "",
        by rw [strAppend_empty, strAppend_empty]⟩
    · have hmem : ("Result: " ++ r) ∈
          (withErrorLineTruncated cfg
            (withResultLine
              ["[Background Task Callback]",
               "Task ID: " ++ t.task_id,
               "Tool: " ++ t.tool_name,
               "Status: " ++ CallbackEventBuilder.statusText t.status]
              t.result)
            t.error
           ++ ["", CallbackEventBuilder.closing_line]) := by
        apply List.mem_append_left
        apply mem_withErrorLineTruncated_of_mem
        rw [hr]
        unfold withResultLine
        simp [hre]
      have hcont := joinLines_contains_of_mem _ _ hmem
      unfold CallbackEventBuilder.build_notification_text
      exact strContains_of_append_left _ _ _ hcont
  · unfold CallbackEventBuilder.build_notification_text
    have hsplit :
        (withErrorLineTruncated cfg
          (withResultLine
            ["[Background Task Callback]",
             "Task ID: " ++ t.task_id,
             "Tool: " ++ t.tool_name,
             "Status: " ++ CallbackEventBuilder.statusText t.status]
            t.result)
          t.error
         ++ ["", CallbackEventBuilder.closing_line]) =
        ((withErrorLineTruncated cfg
          (withResultLine
            ["[Background Task Callback]",
             "Task ID: " ++ t.task_id,
             "Tool: " ++ t.tool_name,
             "Status: " ++ CallbackEventBuilder.statusText t.status]
            t.result)
          t.error
         ++ [""]) ++ [CallbackEventBuilder.closing_line]) := by
      simp
    rw [hsplit]
    exact joinLines_endsWith _ _
  · subst hcfg
    have hne : e ≠ "" := by
      intro he
      rw [he] at hlen
      simp [strLength_eq_zero_iff] at hlen
    have hcap : (100 : Nat) < e.length := by omega
    have htext : CallbackEventBuilder.build_notification_text 100 t =
        joinLines
          ["[Background Task Callback]",
           "Task ID: " ++ t.task_id,
           "Tool: " ++ t.tool_name,
           "Status: " ++ "failed",
           "Error: " ++ (strTake e 100 ++ "..."),
           "",
           CallbackEventBuilder.closing_line] := by
      unfold CallbackEventBuilder.build_notification_text
      rw [hst, hres, herr]
      simp [withResultLine, withErrorLineTruncated, CallbackEventBuilder.statusText,
        hne, hcap]
    constructor
    · rw [htext]
      have hmem : ("Error: " ++ (strTake e 100 ++ "...")) ∈
          (["[Background Task Callback]",
            "Task ID: " ++ t.task_id,
            "Tool: " ++ t.tool_name,
            "Status: " ++ "failed",
            "Error: " ++ (strTake e 100 ++ "..."),
            "",
            CallbackEventBuilder.closing_line] : List String) := by
        simp
      have hcont := joinLines_contains_of_mem _ _ hmem
      rw [← strAppend_assoc] at hcont
      exact strContains_of_append_left _ _ _ hcont
    · rw [htext, joinLines_length_seven]
      have h1 : ("[Background Task Callback]" : String).length = 26 := rfl
      have h2 : ("Task ID: " ++ t.task_id).length = 9 + t.task_id.length := by
        rw [strLength_append]; rfl
      have h3 : ("Tool: " ++ t.tool_name).length = 6 + t.tool_name.length := by
        rw [strLength_append]; rfl
      have h4 : (("Status: " : String) ++ "failed").length = 14 := rfl
      have h5 : ("Error: " ++ (strTake e 100 ++ "...")).length = 7 + ((strTake e 100).length + 3) := by
        rw [strLength_append, strLength_append]; rfl
      have h6 : (strTake e 100).length = 100 := by
        rw [strLength_take]; omega
      have h7 : ("" : String).length = 0 := rfl
      have h8 : (CallbackEventBuilder.closing_line).length ≤ 100 := by decide
      rw [h1, h2, h3, h4, h5, h6, h7]
      omega

/-- Witness for C3 at a concrete failed task with a 1000-character error
and preview cap 100, and at a concrete completed task with result "X". -/
theorem C3_witness :
    let bigError : String := ⟨List.replicate 1000 'x'⟩
    let tFail : BackgroundTask :=
      ((BackgroundTask.new "t1" "demo_tool" [] "sess" 0).start 1).fail bigError 2
    let tDone : BackgroundTask :=
      ((BackgroundTask.new "t2" "demo_tool" [] "sess" 0).start 1).complete "X" 2
    StrContains (CallbackEventBuilder.build_notification_text 100 tDone) "X" ∧
    StrContains (CallbackEventBuilder.build_notification_text 100 tFail) "..." ∧
    (CallbackEventBuilder.build_notification_text 100 tFail).length < bigError.length := by
  intro bigError tFail tDone
  have hlen : bigError.length = 1000 := by
    show (List.replicate 1000 'x').length = 1000
    rw [List.length_replicate]
  have hdone := (C3_notification_roundtrip 100 tDone).1 "X" rfl
  have hfail := (C3_notification_roundtrip 100 tFail).2.2.2 bigError rfl rfl rfl hlen rfl
    (by decide)
  exact ⟨hdone, hfail.1, hfail.2⟩

/-- C4 counterexample: a handler exception with message "boom" and a
non-empty formatted traceback leaves the task's `error` equal to the
message *plus the full traceback*, not the exception type and message
alone — the stack trace is stored in `error` (and hence surfaces in the
notification text), contradicting the claim. -/
theorem C4_counterexample :
    let tb : String := "Traceback (most recent call last):\n  ZeroDivisionError: division by zero"
    let t := TaskExecutor.executeExceptionBranch
      ((BackgroundTask.new "t9" "demo_tool" [] "sess" 0).start 1)
      { message := "boom", formatted_traceback := tb, is_wait_interrupted := false } 2
    t.error = some ("boom" ++ "\n" ++ tb) ∧
    t.error ≠ some "boom" ∧
    StrContains ((t.error).getD "") tb := by
  refine ⟨by decide, by decide, ⟨"boom" ++ "\n", "", by decide⟩⟩

/-- C4 (amended): when a background handler raises any exception other
than the wait-interrupted signal, the task's `error` field is set to the
exception message followed by the full formatted traceback (separated by a
newline), and the notification text embeds that full error — traceback
included — rather than a sanitized type-and-message summary. -/
theorem C4_error_contains_traceback (task : BackgroundTask) (e : ExcInfo) (now : Nat)
    (hni : e.is_wait_interrupted = false) :
    (TaskExecutor.executeExceptionBranch task e now).status = .failed ∧
    (TaskExecutor.executeExceptionBranch task e now).error =
      some (e.message ++ "\n" ++ e.formatted_traceback) ∧
    ∃ nm, (TaskExecutor.executeExceptionBranch task e now).notification_message = some nm ∧
      StrContains nm e.formatted_traceback ∧ StrContains nm e.message := by
  have hunfold : TaskExecutor.executeExceptionBranch task e now =
      { task.fail (e.message ++ "\n" ++ e.formatted_traceback) now with
        notification_message := some (TaskNotifier.build_message
          (task.fail (e.message ++ "\n" ++ e.formatted_traceback) now)) } := by
    unfold TaskExecutor.executeExceptionBranch
    rw [hni]
    rfl
  rw [hunfold]
  have hstat : (task.fail (e.message ++ "\n" ++ e.formatted_traceback) now).status = .failed := by
    simp [BackgroundTask.fail, signalCompletion_status]
  have herr : (task.fail (e.message ++ "\n" ++ e.formatted_traceback) now).error =
      some (e.message ++ "\n" ++ e.formatted_traceback) := by
    simp [BackgroundTask.fail, signalCompletion_error]
  have hmsglen : (e.message ++ "\n" ++ e.formatted_traceback).length =
      e.message.length + 1 + e.formatted_traceback.length := by
    rw [strLength_append, strLength_append]; rfl
  have hne : (e.message ++ "\n" ++ e.formatted_traceback) ≠ "" := by
    intro hempty
    have := congrArg String.length hempty
    rw [hmsglen] at this
    simp at this
  refine ⟨hstat, herr, TaskNotifier.build_message _, rfl, ?_, ?_⟩
  · have hmem : ("Error: " ++ (e.message ++ "\n" ++ e.formatted_traceback)) ∈
        withErrorLineRaw
          (withResultLine
            ["[Background Task Notification]",
             "Task ID: " ++ (task.fail (e.message ++ "\n" ++ e.formatted_traceback) now).task_id,
             "Tool: " ++ (task.fail (e.message ++ "\n" ++ e.formatted_traceback) now).tool_name,
             "Status: " ++ TaskNotifier.statusText
               (task.fail (e.message ++ "\n" ++ e.formatted_traceback) now).status]
            (task.fail (e.message ++ "\n" ++ e.formatted_traceback) now).result)
          (task.fail (e.message ++ "\n" ++ e.formatted_traceback) now).error := by
      rw [herr]
      unfold withErrorLineRaw
      simp [hne]
    have hcont := joinLines_contains_of_mem _ _ hmem
    unfold TaskNotifier.build_message
    have hcont2 := strContains_of_append_left _ _ _ hcont
    exact strContains_of_append_left _ _ _ hcont2
  · have hmem : ("Error: " ++ (e.message ++ "\n" ++ e.formatted_traceback)) ∈
        withErrorLineRaw
          (withResultLine
            ["[Background Task Notification]",
             "Task ID: " ++ (task.fail (e.message ++ "\n" ++ e.formatted_traceback) now).task_id,
             "Tool: " ++ (task.fail (e.message ++ "\n" ++ e.formatted_traceback) now).tool_name,
             "Status: " ++ TaskNotifier.statusText
               (task.fail (e.message ++ "\n" ++ e.formatted_traceback) now).status]
            (task.fail (e.message ++ "\n" ++ e.formatted_traceback) now).result)
          (task.fail (e.message ++ "\n" ++ e.formatted_traceback) now).error := by
      rw [herr]
      unfold withErrorLineRaw
      simp [hne]
    have hcont := joinLines_contains_of_mem _ _ hmem
    unfold TaskNotifier.build_message
    have hcont2 := strContains_of_append_left _ _ _ hcont
    have hcont3 := strContains_of_append_right _ _ _ hcont2
    exact strContains_of_append_right _ _ _ hcont3

/-- Witness for C4 (amended) at a concrete exception. -/
theorem C4_witness :
    let e : ExcInfo :=
      { message := "boom",
        formatted_traceback := "Traceback (most recent call last):\n  ValueError",
        is_wait_interrupted := false }
    let t := TaskExecutor.executeExceptionBranch
      ((BackgroundTask.new "t9" "demo_tool" [] "sess" 0).start 1) e 2
    t.status = .failed ∧
    t.error = some (e.message ++ "\n" ++ e.formatted_traceback) ∧
    ∃ nm, t.notification_message = some nm ∧
      StrContains nm e.formatted_traceback ∧ StrContains nm e.message :=
  C4_error_contains_traceback
    ((BackgroundTask.new "t9" "demo_tool" [] "sess" 0).start 1)
    { message := "boom",
      formatted_traceback := "Traceback (most recent call last):\n  ValueError",
      is_wait_interrupted := false } 2 rfl

theorem evolveTask_cons (t : BackgroundTask) (env : WaitEnv) (l : List WaitEnv) :
    evolveTask t (env :: l) = evolveTask (env.update_task t) l := rfl

theorem checkInterruptFlag_set (flags : List (String × Bool)) (sid : String) :
    checkInterruptFlag (setInterruptFlag flags sid) sid = true := by
  simp [checkInterruptFlag, setInterruptFlag, assocLookup_assocSet_self]

theorem clearInterruptFlag_set (flags : List (String × Bool)) (sid : String)
    (h : assocLookup flags sid = none) :
    clearInterruptFlag (setInterruptFlag flags sid) sid = flags := by
  unfold clearInterruptFlag setInterruptFlag
  rw [assocErase_assocSet_self, assocErase_of_lookup_none _ _ h]

theorem waitLoop_interrupt_spec (task_id session_id : String) (timeout : Nat)
    (j : Nat) :
    ∀ (envs : List WaitEnv) (elapsed : Nat) (m : ManagerModel) (t0 : BackgroundTask)
      (hlook : assocLookup m.registry.tasks task_id = some t0)
      (hflag : assocLookup m.interrupt_flags session_id = none)
      (hj : j < envs.length)
      (hset : (envs.get ⟨j, hj⟩).set_flag = true)
      (hprev : ∀ i (hi : i < envs.length), i < j → (envs.get ⟨i, hi⟩).set_flag = false)
      (hrun : ∀ i, i < j → (evolveTask t0 (envs.take (i+1))).is_finished = false)
      (htime : ∀ i, i < j → elapsed + i < timeout),
    waitLoop task_id session_id timeout envs elapsed m =
      (WaitOutcome.interrupted task_id session_id,
       { m with registry := { m.registry with
           tasks := assocSet m.registry.tasks task_id (evolveTask t0 (envs.take (j+1))) } }) := by
  induction j with
  | zero =>
    intro envs elapsed m t0 hlook hflag hj hset hprev hrun htime
    cases envs with
    | nil => exact absurd hj (by simp)
    | cons e rest =>
      have he : e.set_flag = true := hset
      have hm1tasks :
          (applyWaitEnv m task_id session_id e).registry.tasks =
            assocSet m.registry.tasks task_id (e.update_task t0) := by
        simp [applyWaitEnv, hlook]
      have hm1flags :
          (applyWaitEnv m task_id session_id e).interrupt_flags =
            setInterruptFlag m.interrupt_flags session_id := by
        simp [applyWaitEnv, he]
      show (let m1 := applyWaitEnv m task_id session_id e
        if checkInterruptFlag m1.interrupt_flags session_id then
          (WaitOutcome.interrupted task_id session_id,
            { m1 with interrupt_flags := clearInterruptFlag m1.interrupt_flags session_id })
        else
          match assocLookup m1.registry.tasks task_id with
          | none => (.notFound ("Error: Task " ++ task_id ++ " not found."), m1)
          | some t =>
            if t.is_finished then
              (.finishedResult (finishedMessage task_id t),
                { m1 with interrupt_flags := clearInterruptFlag m1.interrupt_flags session_id })
            else if timeout ≤ elapsed then
              (.timedOut ("Task " ++ task_id ++ " is still running. Timeout after " ++
                  toString timeout ++ "s."),
                { m1 with interrupt_flags := clearInterruptFlag m1.interrupt_flags session_id })
            else
              waitLoop task_id session_id timeout rest (elapsed + 1) m1) = _
      simp only [hm1flags, checkInterruptFlag_set, if_true]
      have hfinal : clearInterruptFlag
          ((applyWaitEnv m task_id session_id e).interrupt_flags) session_id =
          m.interrupt_flags := by
        rw [hm1flags]
        exact clearInterruptFlag_set _ _ hflag
      have : applyWaitEnv m task_id session_id e =
          { m with
            registry := { m.registry with
              tasks := assocSet m.registry.tasks task_id (e.update_task t0) },
            interrupt_flags := setInterruptFlag m.interrupt_flags session_id } := by
        simp [applyWaitEnv, hlook, he]
      rw [this] at hfinal ⊢
      simp only [hfinal]
      rfl
  | succ j ih =>
    intro envs elapsed m t0 hlook hflag hj hset hprev hrun htime
    cases envs with
    | nil => exact absurd hj (by simp)
    | cons e rest =>
      have he : e.set_flag = false := by
        have h0 : (0 : Nat) < (e :: rest).length := by simp
        exact hprev 0 h0 (Nat.succ_pos j)
      have hm1 : applyWaitEnv m task_id session_id e =
          { m with
            registry := { m.registry with
              tasks := assocSet m.registry.tasks task_id (e.update_task t0) } } := by
        simp [applyWaitEnv, hlook, he]
      have hcheck : checkInterruptFlag
          ((applyWaitEnv m task_id session_id e).interrupt_flags) session_id = false := by
        rw [hm1]
        simp [checkInterruptFlag, hflag]
      have hlook1 : assocLookup
          ((applyWaitEnv m task_id session_id e).registry.tasks) task_id =
          some (e.update_task t0) := by
        rw [hm1]
        exact assocLookup_assocSet_self _ _ _
      have hunf1 : (e.update_task t0).is_finished = false := by
        have := hrun 0 (Nat.succ_pos j)
        simpa [evolveTask] using this
      have htime0 : ¬ (timeout ≤ elapsed) := by
        have := htime 0 (Nat.succ_pos j)
        omega
      show (let m1 := applyWaitEnv m task_id session_id e
        if checkInterruptFlag m1.interrupt_flags session_id then
          (WaitOutcome.interrupted task_id session_id,
            { m1 with interrupt_flags := clearInterruptFlag m1.interrupt_flags session_id })
        else
          match assocLookup m1.registry.tasks task_id with
          | none => (.notFound ("Error: Task " ++ task_id ++ " not found."), m1)
          | some t =>
            if t.is_finished then
              (.finishedResult (finishedMessage task_id t),
                { m1 with interrupt_flags := clearInterruptFlag m1.interrupt_flags session_id })
            else if timeout ≤ elapsed then
              (.timedOut ("Task " ++ task_id ++ " is still running. Timeout after " ++
                  toString timeout ++ "s."),
                { m1 with interrupt_flags := clearInterruptFlag m1.interrupt_flags session_id })
            else
              waitLoop task_id session_id timeout rest (elapsed + 1) m1) = _
      simp only [hcheck, if_false, ite_false, Bool.false_eq_true, hlook1, hunf1, htime0]
      have happ := ih rest (elapsed + 1) (applyWaitEnv m task_id session_id e)
        (e.update_task t0) hlook1
        (by rw [hm1]; exact hflag)
        (by simpa using Nat.lt_of_succ_lt_succ hj)
        (by
          have : ((e :: rest).get ⟨j + 1, hj⟩).set_flag = true := hset
          exact this)
        (fun i hi hij => by
          have hx : (i + 1) < (e :: rest).length := by simp; omega
          have := hprev (i + 1) hx (Nat.succ_lt_succ hij)
          exact this)
        (fun i hij => by
          have := hrun (i + 1) (Nat.succ_lt_succ hij)
          rw [List.take_succ_cons, evolveTask_cons] at this
          exact this)
        (fun i hij => by
          have := htime (i + 1) (Nat.succ_lt_succ hij)
          omega)
      rw [happ, hm1]
      rw [List.take_succ_cons, evolveTask_cons]
      simp [assocSet_assocSet_self]

/-- C2: if, while `wait_tool_result` is actively polling for a still-
running task, a new message sets the session's interrupt flag (iteration
`j` of the stimulus trace, before the task finishes and before the
timeout), the wait exits via the distinguished interrupted signal
(`WaitInterruptedException(task_id, session_id)`), the flag is cleared
(the final flag map is the input map minus this session's entry), and the
waited task's entry is exactly the task as evolved by its own concurrent
execution — the wait wrote nothing to its status, result or error — and
the output buffer is untouched. -/
theorem C2_wait_interrupt (m : ManagerModel) (t0 : BackgroundTask)
    (task_id session_id : String) (timeout : Nat) (envs : List WaitEnv) (j : Nat)
    (hlook : assocLookup m.registry.tasks task_id = some t0)
    (hunf : t0.is_finished = false)
    (hj : j < envs.length)
    (hset : (envs.get ⟨j, hj⟩).set_flag = true)
    (hprev : ∀ i (hi : i < envs.length), i < j → (envs.get ⟨i, hi⟩).set_flag = false)
    (hrun : ∀ i, i < j → (evolveTask t0 (envs.take (i+1))).is_finished = false)
    (htime : ∀ i, i < j → i < timeout) :
    (wait_tool_result task_id session_id timeout envs m).1 =
      WaitOutcome.interrupted task_id session_id ∧
    (wait_tool_result task_id session_id timeout envs m).2.interrupt_flags =
      clearInterruptFlag m.interrupt_flags session_id ∧
    assocLookup (wait_tool_result task_id session_id timeout envs m).2.registry.tasks task_id =
      some (evolveTask t0 (envs.take (j+1))) ∧
    (wait_tool_result task_id session_id timeout envs m).2.output_buffer = m.output_buffer := by
  have hwrap : wait_tool_result task_id session_id timeout envs m =
      waitLoop task_id session_id timeout envs 0
        { m with interrupt_flags := clearInterruptFlag m.interrupt_flags session_id } := by
    simp only [wait_tool_result, hlook, hunf, Bool.false_eq_true, if_false, ite_false]
  have hspec := waitLoop_interrupt_spec task_id session_id timeout j envs 0
    { m with interrupt_flags := clearInterruptFlag m.interrupt_flags session_id } t0
    hlook
    (assocLookup_assocErase_self _ _)
    hj hset hprev hrun
    (fun i hij => by have := htime i hij; omega)
  rw [hwrap, hspec]
  exact ⟨rfl, rfl, assocLookup_assocSet_self _ _ _, rfl⟩

/-- Witness for C2: one running task, a two-iteration trace whose second
iteration sets the interrupt flag while the task is still running. -/
theorem C2_witness :
    let t0 := (BackgroundTask.new "t1" "demo_tool" [] "s" 0).start 1
    let m : ManagerModel :=
      { registry := { tasks := [("t1", t0)], session_index := [("s", ["t1"])] },
        running_tasks := [("t1", false)], cancel_events := [("t1", false)] }
    let envs : List WaitEnv :=
      [{ set_flag := false, update_task := fun t => t },
       { set_flag := true, update_task := fun t => t }]
    (wait_tool_result "t1" "s" 300 envs m).1 = WaitOutcome.interrupted "t1" "s" ∧
    (wait_tool_result "t1" "s" 300 envs m).2.interrupt_flags =
      clearInterruptFlag m.interrupt_flags "s" ∧
    assocLookup (wait_tool_result "t1" "s" 300 envs m).2.registry.tasks "t1" =
      some (evolveTask t0 (envs.take 2)) ∧
    (wait_tool_result "t1" "s" 300 envs m).2.output_buffer = m.output_buffer := by
  intro t0 m envs
  exact C2_wait_interrupt m t0 "t1" "s" 300 envs 1
    (by decide) (by decide) (by decide) (by decide)
    (by decide) (by decide) (by decide)

/-- C10: for a task id absent from the registry, `get_tool_output`,
`wait_tool_result` and `stop_tool` each return the interpolated string
"Error: Task {task_id} not found." instead of raising, and the manager
state — registry, output buffers, interrupt flags — is returned
unchanged. -/
theorem C10_unknown_task (m : ManagerModel) (task_id session_id : String)
    (lines timeout : Nat) (envs : List WaitEnv)
    (h : m.registry.get task_id = none) :
    get_tool_output m task_id lines = "Error: Task " ++ task_id ++ " not found." ∧
    wait_tool_result task_id session_id timeout envs m =
      (WaitOutcome.notFound ("Error: Task " ++ task_id ++ " not found."), m) ∧
    stop_tool m task_id = ("Error: Task " ++ task_id ++ " not found.", m) := by
  have h' : assocLookup m.registry.tasks task_id = none := h
  refine ⟨?_, ?_, ?_⟩
  · simp only [get_tool_output, h']
  · simp only [wait_tool_result, h']
  · simp only [stop_tool, h']

/-- Witness for C10 at the empty manager state and id "nope". -/
theorem C10_witness :
    get_tool_output {} "nope" 50 = "Error: Task " ++ "nope" ++ " not found." ∧
    wait_tool_result "nope" "s" 300 [] {} =
      (WaitOutcome.notFound ("Error: Task " ++ "nope" ++ " not found."), {}) ∧
    stop_tool {} "nope" = ("Error: Task " ++ "nope" ++ " not found.", {}) :=
  C10_unknown_task {} "nope" "s" 50 300 [] (by decide)

/-- C9 counterexample: `submit_task(wait=False)` followed immediately — on
the same event-loop slice, before the detached execution has ever been
given control — by `stop_task` yields `stop_task = False` (the id is not
yet in `_running_tasks`), and the task then runs to Completed, not
Cancelled: the claim's "succeeds (returns true)" and "terminal status is
Cancelled, never Completed" both fail. -/
theorem C9_counterexample :
    let t0 := BackgroundTask.new "t1" "demo_tool" [] "sess" 0
    let s0 := submitDetached t0
    let stop := detachedCancel s0 "t1"
    let s3 := stepHandlerOutcome (stepStartExecute stop.2 1) "done" 2
    stop.1 = false ∧ s3.task.status = TaskStatus.completed := by
  constructor
  · rfl
  · rfl

/-- C9 (amended): `stop_task` called immediately after
`submit_task(wait=False)` — before the detached execution has started —
returns false and the task later completes normally (terminal status
Completed); once the detached execution has started and is awaiting the
handler, `stop_task` returns true and the terminal status is Cancelled,
never Completed. -/
theorem C9_stop_detached (t0 : BackgroundTask) (r : String) (n1 n2 : Nat) :
    ((detachedCancel (submitDetached t0) t0.task_id).1 = false) ∧
    ((stepHandlerOutcome
        (stepStartExecute (detachedCancel (submitDetached t0) t0.task_id).2 n1)
        r n2).task.status = TaskStatus.completed) ∧
    ((detachedCancel (stepStartExecute (submitDetached t0) n1) t0.task_id).1 = true) ∧
    ((stepHandlerOutcome
        (detachedCancel (stepStartExecute (submitDetached t0) n1) t0.task_id).2
        r n2).task.status = TaskStatus.cancelled) ∧
    ((stepHandlerOutcome
        (detachedCancel (stepStartExecute (submitDetached t0) n1) t0.task_id).2
        r n2).task.status ≠ TaskStatus.completed) := by
  have hdec0 : cancelDecision (submitDetached t0).running_tasks t0.task_id = false := rfl
  have hcanc0 : detachedCancel (submitDetached t0) t0.task_id = (false, submitDetached t0) := by
    unfold detachedCancel
    rw [hdec0]
    rfl
  have hstart : stepStartExecute (submitDetached t0) n1 =
      { task := t0.start n1, phase := .runningHandler,
        running_tasks := assocSet [] t0.task_id false, cancel_requested := false } := by
    unfold stepStartExecute submitDetached
    rfl
  refine ⟨by rw [hcanc0], ?_, ?_, ?_, ?_⟩
  · rw [hcanc0]
    show (stepHandlerOutcome (stepStartExecute (submitDetached t0) n1) r n2).task.status = _
    rw [hstart]
    unfold stepHandlerOutcome
    simp [BackgroundTask.complete, signalCompletion_status]
  · rw [hstart]
    unfold detachedCancel cancelDecision
    rw [assocLookup_assocSet_self]
    rfl
  · rw [hstart]
    unfold detachedCancel cancelDecision
    rw [assocLookup_assocSet_self]
    show (stepHandlerOutcome
        { task := t0.start n1, phase := .runningHandler,
          running_tasks := assocSet [] t0.task_id false, cancel_requested := true }
        r n2).task.status = _
    unfold stepHandlerOutcome
    simp [BackgroundTask.cancel, signalCompletion_status]
  · rw [hstart]
    unfold detachedCancel cancelDecision
    rw [assocLookup_assocSet_self]
    show (stepHandlerOutcome
        { task := t0.start n1, phase := .runningHandler,
          running_tasks := assocSet [] t0.task_id false, cancel_requested := true }
        r n2).task.status ≠ _
    unfold stepHandlerOutcome
    simp [BackgroundTask.cancel, signalCompletion_status]
